import Mathlib

/-!
Verification development for the feature-derivation core of the
Security-Data-Pipeline repository (`src/feature_engineering.py`).

The pandas `DataFrame` is embedded as a `List` of row structures; the
`timestamp` column (a UTC datetime) is embedded as an integer number of
seconds since the epoch, so `Series.diff().dt.total_seconds()` becomes
integer subtraction and `Series.dt.floor("D")` becomes floor division by
86400.  The `Float64` nullable column `severity_score` is embedded as
`Option Nat` (`none` = pandas `NaN`/`NA`), and the floating-point mean
`user_daily_avg_events` as an exact rational `ℚ`.

A second, column-level embedding (`Cols`, the `...Cols` functions) models
only the column-presence checks and the pandas exceptions (`KeyError`,
non-datetime `.dt` access) of each stage, for the error-handling claims.
-/

namespace SecPipe

/-- One input event record: the four base columns consumed by the core. -/
structure Row where
  user_id : String
  timestamp : Int
  event_id : Nat
  severity : String
deriving DecidableEq

/-- After `add_severity_score`: base columns plus `severity_score`. -/
structure Row1 extends Row where
  severity_score : Option Nat
deriving DecidableEq

/-- After `add_user_event_frequency`: adds `user_event_count_total`. -/
structure Row2 extends Row1 where
  user_event_count_total : Nat
deriving DecidableEq

/-- After `add_user_activity_baseline`: adds `user_daily_avg_events`. -/
structure Row3 extends Row2 where
  user_daily_avg_events : ℚ
deriving DecidableEq

/-- After `add_session_features`: adds the three session columns. -/
structure Row4 extends Row3 where
  session_id : Nat
  session_event_count : Nat
  session_duration_seconds : Int
deriving DecidableEq

/-- The `sev_to_score` dict lookup of `add_severity_score`:
`Series.map` yields `NaN` (here `none`) for keys outside the dict. -/
def sevToScore (s : String) : Option Nat :=
  if s = "info" then some 0
  else if s = "low" then some 1
  else if s = "medium" then some 2
  else if s = "high" then some 3
  else if s = "critical" then some 4
  else none

/-- `add_severity_score`: `df["severity_score"] = df["severity"].map(sev_to_score)`. -/
def add_severity_score (rows : List Row) : List Row1 :=
  rows.map fun r => { toRow := r, severity_score := sevToScore r.severity }

/-- `add_user_event_frequency`:
`df.groupby("user_id")["event_id"].transform("count")` attaches to every
row the number of rows of the same user (all `event_id`s are non-null). -/
def add_user_event_frequency (rows : List Row1) : List Row2 :=
  rows.map fun r =>
    { toRow1 := r
      user_event_count_total := (rows.filter fun x => x.user_id == r.user_id).length }

/-- `tmp["timestamp"].dt.floor("D")`: truncation of an epoch-seconds
timestamp to its UTC calendar day (floor division, exact also for
negative timestamps). -/
def floorDay (t : Int) : Int := t.fdiv 86400

/-- The distinct calendar days on which user `u` has at least one
event (the groups of `groupby(["user_id", "date"])` for that user). -/
def userDays (pairs : List (String × Int)) (u : String) : List Int :=
  ((pairs.filter fun p => p.1 == u).map fun p => floorDay p.2).dedup

/-- The per-day event counts of user `u`, one entry per distinct active
day (the sizes of the `groupby(["user_id", "date"])` groups). -/
def userDayCounts (pairs : List (String × Int)) (u : String) : List Nat :=
  (userDays pairs u).map fun d =>
    ((pairs.filter fun p => p.1 == u).filter fun p => floorDay p.2 == d).length

/-- The per-user mean of `add_user_activity_baseline`: group the user's
rows by calendar day (`groupby(["user_id", "date"]).size()`), then take
the mean of the per-day sizes (`groupby("user_id")["size"].mean()`). -/
def userDailyAvg (pairs : List (String × Int)) (u : String) : ℚ :=
  ((userDayCounts pairs u).sum : ℚ) / ((userDayCounts pairs u).length : ℚ)

/-- `add_user_activity_baseline`: the merge on `user_id` (unique key on
the right) attaches the per-user mean to every row of that user. -/
def add_user_activity_baseline (rows : List Row2) : List Row3 :=
  rows.map fun r =>
    { toRow2 := r
      user_daily_avg_events :=
        userDailyAvg (rows.map fun x => (x.user_id, x.timestamp)) r.user_id }

/-- The lexicographic key comparison of
`df.sort_values(["user_id", "timestamp"])`. -/
def rowLe (a b : Row3) : Bool :=
  if a.user_id = b.user_id then decide (a.timestamp ≤ b.timestamp)
  else decide (a.user_id < b.user_id)

/-- Insert one row into an already sorted list, in front of the first
row it compares `≤` to: an earlier row goes before an equal later one. -/
def orderedInsert (a : Row3) : List Row3 → List Row3
  | [] => [a]
  | b :: l => if rowLe a b then a :: b :: l else b :: orderedInsert a l

/-- `df.sort_values(["user_id", "timestamp"])`: a multi-key
`sort_values` is a stable lexicographic sort (`numpy.lexsort`), embedded
here as a stable insertion sort by the same key. -/
def sort_values : List Row3 → List Row3
  | [] => []
  | a :: l => orderedInsert a (sort_values l)

/-- `df.groupby("user_id")["timestamp"].diff()`: for each row, the
difference of its timestamp and the timestamp of the previous row of the
same user in the current order; `none` (pandas `NaT`) if there is none.
The state `prev` maps each user to the last timestamp seen for it. -/
def timeDiffs (prev : String → Option Int) : List Row3 → List (Option Int)
  | [] => []
  | r :: rest =>
    (match prev r.user_id with
     | none => none
     | some t0 => some (r.timestamp - t0)) ::
      timeDiffs (fun u => if u = r.user_id then some r.timestamp else prev u) rest

/-- The timestamp of the last row of user `u` in a list, or `prev u`
when the list has no row of `u`: the state that `timeDiffs` carries
after processing the list. -/
def lastTsOf (prev : String → Option Int) : List Row3 → String → Option Int
  | [], u => prev u
  | r :: rest, u =>
    lastTsOf (fun v => if v = r.user_id then some r.timestamp else prev v) rest u

/-- `new_session = df["_time_diff_sec"] > gap_seconds` after
`.fillna(np.inf)`: a missing delta (`none`, i.e. `inf`) always starts a
session, otherwise a session starts iff the delta strictly exceeds the
gap. -/
def newSession (gapSeconds : Int) : Option Int → Bool
  | none => true
  | some d => decide (gapSeconds < d)

/-- `new_session.groupby(df["user_id"]).cumsum()`: per-user cumulative
sum of the boolean session-start column, including the current row.  The
state `cnt` carries each user's running count. -/
def cumsumByUser (cnt : String → Nat) : List (String × Bool) → List Nat
  | [] => []
  | p :: rest =>
    let c := cnt p.1 + (if p.2 then 1 else 0)
    c :: cumsumByUser (fun u => if u = p.1 then c else cnt u) rest

/-- The session-start column over the sorted table. -/
def sessionFlags (gapSeconds : Int) (sorted : List Row3) : List Bool :=
  (timeDiffs (fun _ => none) sorted).map (newSession gapSeconds)

/-- The `session_id` column over the sorted table. -/
def sessionIds (gapSeconds : Int) (sorted : List Row3) : List Nat :=
  cumsumByUser (fun _ => 0)
    ((sorted.map fun r => r.user_id).zip (sessionFlags gapSeconds sorted))

/-- `min` of the timestamps of a session group (groups are nonempty). -/
def listMin : List Int → Int
  | [] => 0
  | x :: xs => xs.foldl min x

/-- `max` of the timestamps of a session group (groups are nonempty). -/
def listMax : List Int → Int
  | [] => 0
  | x :: xs => xs.foldl max x

/-- The user/flag pairs whose per-user cumulative sum is the
`session_id` column of `add_session_features`. -/
def startsList (gap_minutes : Nat) (rows : List Row3) : List (String × Bool) :=
  ((sort_values rows).map fun r => r.user_id).zip
    (sessionFlags ((gap_minutes : Int) * 60) (sort_values rows))

/-- The number of session-start rows of user `u` in a user/flag list. -/
def countStarts (l : List (String × Bool)) (u : String) : Nat :=
  (l.filter fun p => p.1 == u && p.2).length

/-- The sorted table with its `session_id` column: the state of the
frame in `add_session_features` just before the per-session merge. -/
def sessionTable (gap_minutes : Nat) (rows : List Row3) : List (Row3 × Nat) :=
  (sort_values rows).zip (sessionIds ((gap_minutes : Int) * 60) (sort_values rows))

/-- The `groupby(["user_id", "session_id"])` group of one row. -/
def sessionGroup (withSid : List (Row3 × Nat)) (p : Row3 × Nat) : List (Row3 × Nat) :=
  withSid.filter fun q => q.1.user_id == p.1.user_id && q.2 == p.2

/-- The per-session merge of `add_session_features`: each row receives
the size and the timestamp span of its own `(user_id, session_id)`
group (the merge key is unique per group, so `how="left"` attaches
exactly one statistics row to each table row). -/
def attachSessionStats (withSid : List (Row3 × Nat)) (p : Row3 × Nat) : Row4 :=
  let grp := sessionGroup withSid p
  let tss := grp.map fun q => q.1.timestamp
  { toRow3 := p.1
    session_id := p.2
    session_event_count := grp.length
    session_duration_seconds := listMax tss - listMin tss }

/-- `add_session_features`: sort by (`user_id`, `timestamp`), mark
session starts by the strict gap comparison, number sessions by the
per-user cumulative sum, then group by (`user_id`, `session_id`) and
merge the group statistics back onto every row of the group.  The table
keeps the sorted order. -/
def add_session_features (gap_minutes : Nat) (rows : List Row3) : List Row4 :=
  let withSid := sessionTable gap_minutes rows
  withSid.map (attachSessionStats withSid)

/-- `run_all`: the four stages in order. -/
def run_all (gap_minutes : Nat) (rows : List Row) : List Row4 :=
  add_session_features gap_minutes
    (add_user_activity_baseline (add_user_event_frequency (add_severity_score rows)))

/-! ### Column-level embedding for the error-handling claims

Only the presence (and, for `timestamp`, the dtype) of the four base
columns is tracked; derived columns are never read by a later stage, so
a stage that runs without error returns its input schema. -/

/-- A minimal `Row3` for concrete test tables: only the two columns the
Session Segmenter reads vary, the rest are fixed defaults. -/
def mkRow3 (u : String) (t : Int) : Row3 :=
  { user_id := u, timestamp := t, event_id := 0, severity := "info",
    severity_score := none, user_event_count_total := 0, user_daily_avg_events := 0 }

/-- A `Row4` test row with the same defaults as `mkRow3`. -/
def mkRow4 (u : String) (t : Int) (sid cnt : Nat) (dur : Int) : Row4 :=
  { user_id := u, timestamp := t, event_id := 0, severity := "info",
    severity_score := none, user_event_count_total := 0, user_daily_avg_events := 0,
    session_id := sid, session_event_count := cnt, session_duration_seconds := dur }

/-- A minimal `Row2` for concrete test tables. -/
def mkRow2 (u : String) (t : Int) : Row2 :=
  { user_id := u, timestamp := t, event_id := 0, severity := "info",
    severity_score := none, user_event_count_total := 0 }

/-- A four-event one-user test table: three events on day 0, one event
on day 1 (the spec's daily-average example). -/
def baselineSample : List Row2 :=
  [mkRow2 "u" 0, mkRow2 "u" 100, mkRow2 "u" 200, mkRow2 "u" 86400]

/-- The dtype of the `timestamp` column. -/
inductive Dtype where
  | datetime
  | other
deriving DecidableEq

/-- The schema of the input table: which base columns are present.
`timestamp = none` means the column is absent. -/
structure Cols where
  severity : Bool
  user_id : Bool
  event_id : Bool
  timestamp : Option Dtype
deriving DecidableEq

/-- Schema constructor shorthand. -/
def mkCols (sev uid eid : Bool) (ts : Option Dtype) : Cols :=
  { severity := sev, user_id := uid, event_id := eid, timestamp := ts }

/-- `add_severity_score` at schema level: `df["severity"]` raises
`KeyError` when the column is absent; otherwise the stage succeeds. -/
def severityScoreCols (c : Cols) : Except String Cols :=
  if c.severity then .ok c
  else .error "add_severity_score: KeyError severity"

/-- `add_user_event_frequency` at schema level: explicit no-op
pass-through when `user_id` is absent; otherwise
`df.groupby("user_id")["event_id"]` raises `KeyError` when `event_id`
is absent. -/
def userEventFrequencyCols (c : Cols) : Except String Cols :=
  if !c.user_id then .ok c
  else if c.event_id then .ok c
  else .error "add_user_event_frequency: KeyError event_id"

/-- `add_user_activity_baseline` at schema level: no-op pass-through
when `timestamp` is absent or not a datetime dtype; otherwise
`df[["user_id", "timestamp"]]` raises `KeyError` when `user_id` is
absent. -/
def userActivityBaselineCols (c : Cols) : Except String Cols :=
  if c.timestamp ≠ some .datetime then .ok c
  else if c.user_id then .ok c
  else .error "add_user_activity_baseline: KeyError user_id"

/-- `add_session_features` at schema level: no-op pass-through when
`timestamp` is absent; otherwise `sort_values(["user_id", "timestamp"])`
raises `KeyError` when `user_id` is absent, the `.dt` accessor raises
when `timestamp` is not a datetime dtype, and the aggregation over
`event_id` raises `KeyError` when that column is absent. -/
def sessionFeaturesCols (c : Cols) : Except String Cols :=
  if c.timestamp = none then .ok c
  else if !c.user_id then .error "add_session_features: KeyError user_id"
  else if c.timestamp ≠ some .datetime then .error "add_session_features: dt accessor on non-datetime"
  else if !c.event_id then .error "add_session_features: KeyError event_id"
  else .ok c

/-- `run_all` at schema level: the four stages in order, stopping at the
first exception. -/
def runAllCols (c : Cols) : Except String Cols := do
  let c1 ← severityScoreCols c
  let c2 ← userEventFrequencyCols c1
  let c3 ← userActivityBaselineCols c2
  sessionFeaturesCols c3

/-! ### Length and permutation bookkeeping -/

theorem length_orderedInsert (a : Row3) (l : List Row3) :
    (orderedInsert a l).length = l.length + 1 := by
  induction l with
  | nil => rfl
  | cons b t ih =>
    simp only [orderedInsert]
    by_cases h : rowLe a b = true
    · simp [h]
    · simp [h, ih]

theorem perm_orderedInsert (a : Row3) (l : List Row3) :
    (orderedInsert a l).Perm (a :: l) := by
  induction l with
  | nil => exact List.Perm.refl _
  | cons b t ih =>
    simp only [orderedInsert]
    by_cases h : rowLe a b = true
    · simp [h]
    · simp only [h, if_neg]
      exact ((ih.cons b).trans (List.Perm.swap a b t)).symm.symm

theorem perm_sort_values (l : List Row3) : (sort_values l).Perm l := by
  induction l with
  | nil => exact List.Perm.refl _
  | cons a t ih =>
    exact (perm_orderedInsert a (sort_values t)).trans (ih.cons a)

theorem length_sort_values (l : List Row3) : (sort_values l).length = l.length :=
  (perm_sort_values l).length_eq

theorem length_timeDiffs (prev : String → Option Int) (l : List Row3) :
    (timeDiffs prev l).length = l.length := by
  induction l generalizing prev with
  | nil => rfl
  | cons r rest ih => simp [timeDiffs, ih]

theorem length_sessionFlags (g : Int) (l : List Row3) :
    (sessionFlags g l).length = l.length := by
  simp [sessionFlags, length_timeDiffs]

theorem length_cumsumByUser (cnt : String → Nat) (l : List (String × Bool)) :
    (cumsumByUser cnt l).length = l.length := by
  induction l generalizing cnt with
  | nil => rfl
  | cons p rest ih => simp [cumsumByUser, ih]

theorem length_sessionIds (g : Int) (l : List Row3) :
    (sessionIds g l).length = l.length := by
  simp [sessionIds, length_cumsumByUser, length_sessionFlags]

theorem length_sessionTable (gap : Nat) (rows : List Row3) :
    (sessionTable gap rows).length = rows.length := by
  simp [sessionTable, length_sessionIds, length_sort_values]

theorem length_add_session_features (gap : Nat) (rows : List Row3) :
    (add_session_features gap rows).length = rows.length := by
  simp [add_session_features, length_sessionTable]

/-! ### The sort key is a total preorder and `sort_values` is a stable
sort by it -/

theorem rowLe_refl (a : Row3) : rowLe a a = true := by
  simp [rowLe]

theorem rowLe_total (a b : Row3) (h : ¬ rowLe a b = true) : rowLe b a = true := by
  unfold rowLe at h ⊢
  by_cases hu : a.user_id = b.user_id
  · simp only [hu, if_pos, decide_eq_true_eq] at h ⊢
    omega
  · rw [if_neg hu, decide_eq_true_eq, not_lt] at h
    rw [if_neg (fun e => hu e.symm), decide_eq_true_eq]
    exact lt_of_le_of_ne h (fun e => hu e.symm)

theorem rowLe_trans (a b c : Row3) (hab : rowLe a b = true) (hbc : rowLe b c = true) :
    rowLe a c = true := by
  unfold rowLe at hab hbc ⊢
  by_cases h1 : a.user_id = b.user_id <;> by_cases h2 : b.user_id = c.user_id
  · rw [if_pos h1, decide_eq_true_eq] at hab
    rw [if_pos h2, decide_eq_true_eq] at hbc
    rw [if_pos (h1.trans h2), decide_eq_true_eq]
    omega
  · rw [if_neg h2, decide_eq_true_eq] at hbc
    rw [if_neg (h1 ▸ h2), decide_eq_true_eq]
    exact h1 ▸ hbc
  · rw [if_neg h1, decide_eq_true_eq] at hab
    rw [if_neg (h2 ▸ h1), decide_eq_true_eq]
    exact h2 ▸ hab
  · rw [if_neg h1, decide_eq_true_eq] at hab
    rw [if_neg h2, decide_eq_true_eq] at hbc
    have hac := lt_trans hab hbc
    rw [if_neg (fun e => absurd (e ▸ hac) (lt_irrefl _)), decide_eq_true_eq]
    exact hac

theorem mem_orderedInsert {x a : Row3} {l : List Row3} (h : x ∈ orderedInsert a l) :
    x = a ∨ x ∈ l :=
  List.mem_cons.mp ((perm_orderedInsert a l).mem_iff.mp h)

theorem sorted_orderedInsert (a : Row3) (l : List Row3)
    (h : l.Pairwise (fun x y => rowLe x y = true)) :
    (orderedInsert a l).Pairwise (fun x y => rowLe x y = true) := by
  induction l with
  | nil => simp [orderedInsert]
  | cons b t ih =>
    rw [List.pairwise_cons] at h
    simp only [orderedInsert]
    by_cases hab : rowLe a b = true
    · rw [if_pos hab, List.pairwise_cons]
      refine ⟨?_, List.pairwise_cons.mpr h⟩
      intro x hx
      rcases List.mem_cons.mp hx with hx | hx
      · exact hx ▸ hab
      · exact rowLe_trans a b x hab (h.1 x hx)
    · rw [if_neg hab, List.pairwise_cons]
      refine ⟨?_, ih h.2⟩
      intro x hx
      rcases mem_orderedInsert hx with hx | hx
      · exact hx ▸ rowLe_total a b hab
      · exact h.1 x hx

theorem sorted_sort_values (l : List Row3) :
    (sort_values l).Pairwise (fun x y => rowLe x y = true) := by
  induction l with
  | nil => simp [sort_values]
  | cons a t ih => exact sorted_orderedInsert a (sort_values t) ih

theorem filter_orderedInsert_pos (p : Row3 → Bool) (a : Row3) (s : List Row3)
    (hpa : p a = true) (h : ∀ x ∈ s, p x = true → rowLe a x = true) :
    (orderedInsert a s).filter p = a :: s.filter p := by
  induction s with
  | nil => simp [orderedInsert, hpa]
  | cons b t ih =>
    simp only [orderedInsert]
    by_cases hab : rowLe a b = true
    · simp [hab, hpa]
    · rw [if_neg hab]
      have hpb : p b = false := by
        cases hb : p b
        · rfl
        · exact absurd (h b (List.mem_cons_self b t) hb) hab
      rw [List.filter_cons_of_neg (by simp [hpb]),
        ih (fun x hx hpx => h x (List.mem_cons_of_mem b hx) hpx),
        List.filter_cons_of_neg (by simp [hpb])]

theorem filter_orderedInsert_neg (p : Row3 → Bool) (a : Row3) (s : List Row3)
    (hpa : p a = false) :
    (orderedInsert a s).filter p = s.filter p := by
  induction s with
  | nil => simp [orderedInsert, hpa]
  | cons b t ih =>
    simp only [orderedInsert]
    by_cases hab : rowLe a b = true
    · simp [hab, hpa]
    · rw [if_neg hab]
      cases hb : p b
      · rw [List.filter_cons_of_neg (by simp [hb]), ih,
          List.filter_cons_of_neg (by simp [hb])]
      · rw [List.filter_cons_of_pos (by simp [hb]), ih,
          List.filter_cons_of_pos (by simp [hb])]

/-- Stability of `sort_values`: a predicate that only selects rows whose
keys are mutually `≤` (one key class) filters to the same list, in the
same order, before and after sorting. -/
theorem filter_sort_values (p : Row3 → Bool)
    (hp : ∀ a b, p a = true → p b = true → rowLe a b = true) (l : List Row3) :
    (sort_values l).filter p = l.filter p := by
  induction l with
  | nil => rfl
  | cons a t ih =>
    simp only [sort_values]
    cases hpa : p a
    · rw [filter_orderedInsert_neg p a _ hpa, ih,
        List.filter_cons_of_neg (by simp [hpa])]
    · rw [filter_orderedInsert_pos p a _ hpa
        (fun x _ hpx => hp a x hpa hpx), ih,
        List.filter_cons_of_pos (by simp [hpa])]

/-! ### Pointwise characterization of the grouped diff and the grouped
cumulative sum -/

theorem countStarts_nil (u : String) : countStarts [] u = 0 := rfl

theorem countStarts_cons (p : String × Bool) (l : List (String × Bool)) (u : String) :
    countStarts (p :: l) u
      = (if p.1 = u ∧ p.2 = true then 1 else 0) + countStarts l u := by
  simp only [countStarts, List.filter_cons]
  by_cases h : p.1 = u ∧ p.2 = true
  · rw [if_pos (show (p.1 == u && p.2) = true by simp [h.1, h.2]), if_pos h,
      List.length_cons]
    omega
  · rw [if_neg (show ¬ (p.1 == u && p.2) = true by
      simp only [Bool.and_eq_true, beq_iff_eq, not_and]
      exact fun h1 h2 => absurd ⟨h1, h2⟩ h), if_neg h]
    simp

theorem lastTsOf_of_not_mem (prev : String → Option Int) (l : List Row3) (u : String)
    (h : ∀ r ∈ l, r.user_id ≠ u) : lastTsOf prev l u = prev u := by
  induction l generalizing prev with
  | nil => rfl
  | cons r rest ih =>
    rw [lastTsOf, ih _ (fun x hx => h x (List.mem_cons_of_mem r hx)),
      if_neg (fun e => h r (List.mem_cons_self r rest) (e.symm))]

theorem lastTsOf_append_one (prev : String → Option Int) (l : List Row3) (r : Row3)
    (u : String) :
    lastTsOf prev (l ++ [r]) u
      = if u = r.user_id then some r.timestamp else lastTsOf prev l u := by
  induction l generalizing prev with
  | nil => rfl
  | cons x rest ih =>
    simp only [List.cons_append, lastTsOf]
    exact ih _

theorem timeDiffs_getElem? (l : List Row3) (prev : String → Option Int) (i : Nat) :
    (timeDiffs prev l)[i]?
      = (l[i]?).map fun r =>
          Option.map (fun t0 => r.timestamp - t0) (lastTsOf prev (l.take i) r.user_id) := by
  induction l generalizing prev i with
  | nil => simp [timeDiffs]
  | cons r rest ih =>
    cases i with
    | zero =>
      simp only [timeDiffs, List.getElem?_cons_zero, List.take_zero, lastTsOf,
        Option.map_some']
      cases prev r.user_id <;> rfl
    | succ n =>
      simp only [timeDiffs, List.getElem?_cons_succ, List.take_succ_cons, lastTsOf]
      exact ih _ n

theorem cumsumByUser_getElem? (l : List (String × Bool)) (cnt : String → Nat) (i : Nat) :
    (cumsumByUser cnt l)[i]?
      = (l[i]?).map fun p => cnt p.1 + countStarts (l.take (i + 1)) p.1 := by
  induction l generalizing cnt i with
  | nil => simp [cumsumByUser]
  | cons p rest ih =>
    cases i with
    | zero =>
      simp only [cumsumByUser, List.getElem?_cons_zero, Option.map_some',
        List.take_succ_cons, List.take_zero, countStarts_cons, countStarts_nil]
      cases hb : p.2 <;> simp [hb]
    | succ n =>
      simp only [cumsumByUser, List.getElem?_cons_succ, List.take_succ_cons]
      rw [ih]
      cases hr : rest[n]? with
      | none => rfl
      | some q =>
        simp only [Option.map_some', countStarts_cons, Option.some_inj]
        by_cases hq : q.1 = p.1
        · rw [if_pos hq, hq]
          cases hb : p.2
          · simp [hb]
          · simp [hb]
            omega
        · rw [if_neg hq, if_neg (show ¬ (p.1 = q.1 ∧ p.2 = true) from
            fun e => hq e.1.symm)]
          omega

/-! ### Pointwise description of the session table -/

theorem countStarts_append (l1 l2 : List (String × Bool)) (u : String) :
    countStarts (l1 ++ l2) u = countStarts l1 u + countStarts l2 u := by
  simp [countStarts, List.filter_append]

theorem countStarts_eq_zero (l : List (String × Bool)) (u : String)
    (h : ∀ p ∈ l, p.1 = u → p.2 = false) : countStarts l u = 0 := by
  simp only [countStarts, List.length_eq_zero]
  rw [List.filter_eq_nil_iff]
  intro p hp
  simp only [Bool.and_eq_true, beq_iff_eq, not_and]
  intro h1
  rw [h p hp h1]
  simp

/-- The session-start flag of the row at position `i` of the sorted
table, written with the explicit grouped-diff value. -/
theorem sessionFlags_getElem? (g : Int) (sorted : List Row3) (i : Nat) (r : Row3)
    (hi : sorted[i]? = some r) :
    (sessionFlags g sorted)[i]?
      = some (newSession g
          (Option.map (fun t0 => r.timestamp - t0)
            (lastTsOf (fun _ => none) (sorted.take i) r.user_id))) := by
  simp only [sessionFlags, List.getElem?_map, timeDiffs_getElem?, hi, Option.map_some']

/-- The `(user, flag)` pair of the row at position `i`. -/
theorem startsList_getElem? (gap : Nat) (rows : List Row3) (i : Nat) (r : Row3)
    (hi : (sort_values rows)[i]? = some r) :
    (startsList gap rows)[i]?
      = some (r.user_id,
          newSession ((gap : Int) * 60)
            (Option.map (fun t0 => r.timestamp - t0)
              (lastTsOf (fun _ => none) ((sort_values rows).take i) r.user_id))) := by
  rw [startsList, List.getElem?_zip_eq_some]
  constructor
  · simp [List.getElem?_map, hi]
  · exact sessionFlags_getElem? _ _ i r hi

/-- The `session_id` of the row at position `i` of the sorted table is
the number of session-start rows of its user among positions `0..i`. -/
theorem sessionTable_getElem? (gap : Nat) (rows : List Row3) (i : Nat) (r : Row3)
    (hi : (sort_values rows)[i]? = some r) :
    (sessionTable gap rows)[i]?
      = some (r, countStarts ((startsList gap rows).take (i + 1)) r.user_id) := by
  rw [sessionTable, List.getElem?_zip_eq_some]
  refine ⟨hi, ?_⟩
  have hz : (sessionIds ((gap : Int) * 60) (sort_values rows)) = cumsumByUser (fun _ => 0) (startsList gap rows) := rfl
  rw [hz, cumsumByUser_getElem?]
  have hlt : i < (sort_values rows).length := by
    rcases List.getElem?_eq_some.mp hi with ⟨h, _⟩
    exact h
  have hlen : (startsList gap rows).length = (sort_values rows).length := by
    simp [startsList, length_sessionFlags]
  have hs : ∃ q, (startsList gap rows)[i]? = some q ∧ q.1 = r.user_id := by
    refine ⟨_, startsList_getElem? gap rows i r hi, rfl⟩
  rcases hs with ⟨q, hq, hq1⟩
  rw [hq]
  simp [hq1]

/-- Each output row of `add_session_features` is its sorted-table row
with the session columns attached; in particular its `session_id` is the
running per-user session-start count up to its position. -/
theorem out_elem_spec (gap : Nat) (rows : List Row3) (i : Nat) (s : Row4)
    (h : (add_session_features gap rows)[i]? = some s) :
    ∃ r : Row3, (sort_values rows)[i]? = some r ∧ s.toRow3 = r ∧
      s = attachSessionStats (sessionTable gap rows)
            (r, countStarts ((startsList gap rows).take (i + 1)) r.user_id) ∧
      s.session_id = countStarts ((startsList gap rows).take (i + 1)) r.user_id := by
  have hlt : i < (add_session_features gap rows).length := by
    rcases List.getElem?_eq_some.mp h with ⟨hl, _⟩
    exact hl
  rw [length_add_session_features] at hlt
  have hlt2 : i < (sort_values rows).length := by rwa [length_sort_values]
  have hi : (sort_values rows)[i]? = some ((sort_values rows)[i]) :=
    List.getElem?_eq_getElem hlt2
  set r := (sort_values rows)[i] with hr
  have hst := sessionTable_getElem? gap rows i r hi
  have hout : (add_session_features gap rows)[i]?
      = some (attachSessionStats (sessionTable gap rows)
          (r, countStarts ((startsList gap rows).take (i + 1)) r.user_id)) := by
    rw [add_session_features, List.getElem?_map, hst, Option.map_some']
  rw [h] at hout
  refine ⟨r, hi, ?_, ?_, ?_⟩
  · rw [Option.some_inj.mp hout]
    rfl
  · exact Option.some_inj.mp hout
  · rw [Option.some_inj.mp hout]
    rfl

/-! ### First occurrences always start a session; session ids start
at 1 -/

theorem mem_take_index {α : Type} {x : α} {l : List α} {n : Nat}
    (h : x ∈ l.take n) : ∃ k, k < n ∧ l[k]? = some x := by
  rcases List.mem_iff_getElem?.mp h with ⟨k, hk⟩
  have hkn : k < n := by
    by_contra hge
    rw [List.getElem?_eq_none (by
      exact le_trans (List.length_take_le n l) (le_of_not_lt hge))] at hk
    exact Option.noConfusion hk
  exact ⟨k, hkn, by rwa [List.getElem?_take_of_lt hkn] at hk⟩

theorem countStarts_take_mono (l : List (String × Bool)) (u : String) {k i : Nat}
    (h : k ≤ i) : countStarts (l.take k) u ≤ countStarts (l.take i) u := by
  have : i = k + (i - k) := by omega
  rw [this, List.take_add, countStarts_append]
  omega

/-- At a position with no earlier row of the same user, the grouped
diff is `NaT` and the session-start flag is therefore `true`; the
running start count up to that position is exactly 1. -/
theorem countStarts_take_first (gap : Nat) (rows : List Row3) (j : Nat) (r : Row3)
    (hj : (sort_values rows)[j]? = some r)
    (hfirst : ∀ k, k < j → ∀ x, (sort_values rows)[k]? = some x → x.user_id ≠ r.user_id) :
    countStarts ((startsList gap rows).take (j + 1)) r.user_id = 1 := by
  have hz := startsList_getElem? gap rows j r hj
  have hlast : lastTsOf (fun _ => none) ((sort_values rows).take j) r.user_id = none := by
    apply lastTsOf_of_not_mem
    intro x hx
    rcases mem_take_index hx with ⟨k, hk, hxk⟩
    exact hfirst k hk x hxk
  rw [List.take_succ, countStarts_append, hz]
  have h0 : countStarts ((startsList gap rows).take j) r.user_id = 0 := by
    apply countStarts_eq_zero
    intro p hp hpu
    rcases mem_take_index hp with ⟨k, hk, hpk⟩
    have hks : k < (sort_values rows).length := by
      have : k < (startsList gap rows).length := by
        rcases List.getElem?_eq_some.mp hpk with ⟨hl, _⟩
        exact hl
      simpa [startsList, length_sessionFlags] using this
    have hx : (sort_values rows)[k]? = some ((sort_values rows)[k]) :=
      List.getElem?_eq_getElem hks
    have := startsList_getElem? gap rows k _ hx
    rw [this] at hpk
    have hpe := Option.some_inj.mp hpk
    exact absurd (by rw [← hpe] at hpu; exact hpu)
      (hfirst k hk _ hx)
  rw [h0, hlast]
  simp [countStarts, newSession]

/-- Every row's `session_id` is at least 1: its user's chronologically
first row always starts a session. -/
theorem one_le_countStarts (gap : Nat) (rows : List Row3) (i : Nat) (r : Row3)
    (hi : (sort_values rows)[i]? = some r) :
    1 ≤ countStarts ((startsList gap rows).take (i + 1)) r.user_id := by
  induction i using Nat.strong_induction_on generalizing r with
  | _ i ih =>
    by_cases hfirst : ∀ k, k < i → ∀ x, (sort_values rows)[k]? = some x → x.user_id ≠ r.user_id
    · rw [countStarts_take_first gap rows i r hi hfirst]
    · push_neg at hfirst
      rcases hfirst with ⟨k, hk, x, hxk, hxu⟩
      have h1 := ih k hk x hxk
      rw [hxu] at h1
      exact le_trans h1 (countStarts_take_mono _ _ (by omega))

/-! ### Claim C1 -/

/-- C1, counterexample: for a table with a single event of a single
user, the Session Segmenter assigns `session_id` 1, not 0: the per-user
cumulative sum of the session-start indicator includes the current row,
so the chronologically first session of each user has `session_id` 1. -/
theorem session_ids_not_zero_based :
    (add_session_features 30 [mkRow3 "u" 0]).map (fun s => s.session_id) = [1] ∧
    ¬ (add_session_features 30 [mkRow3 "u" 0]).map (fun s => s.session_id) = [0] := by
  decide

/-- C1 (amended): for every input table and every row of the output,
`session_id` is the running count of session-starts of that row's user
up to and including that row (in the internal chronological order), and
this count begins at 1: the chronologically first session of each user
has `session_id` 1, the second 2, and so on. -/
theorem session_id_is_running_start_count (gap : Nat) (rows : List Row3) (i : Nat)
    (s : Row4) (h : (add_session_features gap rows)[i]? = some s) :
    s.session_id = countStarts ((startsList gap rows).take (i + 1)) s.user_id ∧
    1 ≤ s.session_id := by
  rcases out_elem_spec gap rows i s h with ⟨r, hi, hr3, _, hsid⟩
  have hu : s.user_id = r.user_id := congrArg (fun x : Row3 => x.user_id) hr3
  constructor
  · rw [hu, hsid]
  · rw [hsid]
    exact one_le_countStarts gap rows i r hi

/-- Witness for C1: on the two-session table `[u@0, u@7200]` with a
30-minute gap, the second row has `session_id` 2 = its running start
count, and `1 ≤ 2`. -/
theorem session_id_is_running_start_count_witness :
    ({ user_id := "u", timestamp := 7200, event_id := 0, severity := "info",
       severity_score := none, user_event_count_total := 0, user_daily_avg_events := 0,
       session_id := 2, session_event_count := 1,
       session_duration_seconds := 0 : Row4 }).session_id
        = countStarts ((startsList 30 [mkRow3 "u" 0, mkRow3 "u" 7200]).take (1 + 1))
            ({ user_id := "u", timestamp := 7200, event_id := 0, severity := "info",
               severity_score := none, user_event_count_total := 0,
               user_daily_avg_events := 0, session_id := 2, session_event_count := 1,
               session_duration_seconds := 0 : Row4 }).user_id ∧
    1 ≤ ({ user_id := "u", timestamp := 7200, event_id := 0, severity := "info",
           severity_score := none, user_event_count_total := 0,
           user_daily_avg_events := 0, session_id := 2, session_event_count := 1,
           session_duration_seconds := 0 : Row4 }).session_id :=
  session_id_is_running_start_count 30 [mkRow3 "u" 0, mkRow3 "u" 7200] 1 _ (by decide)

/-! ### Claim C2 -/

/-- C2, counterexample: with the single-user table `[u@100, u@0]` the
Session Segmenter returns the rows in time-sorted order `[u@0, u@100]`,
not in the original row order: the internal sort is never undone. -/
theorem output_order_not_original :
    (add_session_features 30 [mkRow3 "u" 100, mkRow3 "u" 0]).map (fun s => s.toRow3)
        = [mkRow3 "u" 0, mkRow3 "u" 100] ∧
    ¬ (add_session_features 30 [mkRow3 "u" 100, mkRow3 "u" 0]).map (fun s => s.toRow3)
        = [mkRow3 "u" 100, mkRow3 "u" 0] := by
  decide

/-- Dropping the three added session columns from the output of
`add_session_features` gives back exactly the sorted input table. -/
theorem map_toRow3_add_session_features (gap : Nat) (rows : List Row3) :
    (add_session_features gap rows).map (fun s => s.toRow3) = sort_values rows := by
  have hlen : (sort_values rows).length
      ≤ (sessionIds ((gap : Int) * 60) (sort_values rows)).length := by
    rw [length_sessionIds]
  rw [add_session_features, sessionTable, List.map_map]
  have : ((fun s : Row4 => s.toRow3) ∘
      attachSessionStats ((sort_values rows).zip
        (sessionIds ((gap : Int) * 60) (sort_values rows))))
      = Prod.fst := by
    funext p
    rfl
  rw [this, List.map_fst_zip _ _ hlen]

/-- C2 (amended): the table returned by the Session Segmenter (and
hence by the whole core) contains exactly the input rows — same count
and identity, no row lost or duplicated — but in the internal
(`user_id`, `timestamp`) stable-sort order, which is also the order of
the returned table; the original row order is not restored. -/
theorem output_rows_are_sorted_input (gap : Nat) (rows : List Row3) :
    ((add_session_features gap rows).map (fun s => s.toRow3)).Perm rows ∧
    (add_session_features gap rows).map (fun s => s.toRow3) = sort_values rows ∧
    (sort_values rows).Pairwise (fun a b => rowLe a b = true) := by
  have heq := map_toRow3_add_session_features gap rows
  exact ⟨heq ▸ perm_sort_values rows, heq, sorted_sort_values rows⟩

/-! ### Claim C3 -/

/-- The output row of `add_session_features` at any position of the
sorted table, written explicitly. -/
theorem out_getElem?_eq (gap : Nat) (rows : List Row3) (j : Nat) (x : Row3)
    (hx : (sort_values rows)[j]? = some x) :
    (add_session_features gap rows)[j]?
      = some (attachSessionStats (sessionTable gap rows)
          (x, countStarts ((startsList gap rows).take (j + 1)) x.user_id)) := by
  rw [add_session_features, List.getElem?_map, sessionTable_getElem? gap rows j x hx,
    Option.map_some']

/-- C3: consecutive (time-ordered) events of the same user are in the
same session iff their time delta is at most `gap_minutes * 60` seconds
(a delta exactly equal to the threshold keeps them together; a strictly
larger delta moves the later event to the next session), and a row with
no earlier row of its user — the user's chronologically first event —
always starts a new (its user's first) session. -/
theorem session_break_iff_gap_exceeded (gap : Nat) (rows : List Row3) :
    (∀ (i : Nat) (a b : Row4), (add_session_features gap rows)[i]? = some a →
       (add_session_features gap rows)[i + 1]? = some b →
       a.user_id = b.user_id →
       ((b.session_id = a.session_id ↔ b.timestamp - a.timestamp ≤ (gap : Int) * 60) ∧
        (b.session_id = a.session_id + 1 ↔ (gap : Int) * 60 < b.timestamp - a.timestamp))) ∧
    (∀ (i : Nat) (a : Row4), (add_session_features gap rows)[i]? = some a →
       (∀ (j : Nat) (b : Row4), j < i → (add_session_features gap rows)[j]? = some b →
          b.user_id ≠ a.user_id) →
       a.session_id = 1) := by
  constructor
  · intro i a b ha hb hu
    rcases out_elem_spec gap rows i a ha with ⟨ra, hia, hra, _, hsa⟩
    rcases out_elem_spec gap rows (i + 1) b hb with ⟨rb, hib, hrb, _, hsb⟩
    have hua : a.user_id = ra.user_id := congrArg (fun x : Row3 => x.user_id) hra
    have hub : b.user_id = rb.user_id := congrArg (fun x : Row3 => x.user_id) hrb
    have hta : a.timestamp = ra.timestamp := congrArg (fun x : Row3 => x.timestamp) hra
    have htb : b.timestamp = rb.timestamp := congrArg (fun x : Row3 => x.timestamp) hrb
    have huu : rb.user_id = ra.user_id := by rw [← hua, ← hub, hu]
    -- the grouped diff at position i+1 is against the row at position i
    have htake : (sort_values rows).take (i + 1)
        = (sort_values rows).take i ++ [ra] := by
      rw [List.take_succ, hia]
      rfl
    have hlast : lastTsOf (fun _ => none) ((sort_values rows).take (i + 1)) rb.user_id
        = some ra.timestamp := by
      rw [htake, lastTsOf_append_one, if_pos huu]
    have hfl := startsList_getElem? gap rows (i + 1) rb hib
    rw [hlast] at hfl
    have hcnt : countStarts ((startsList gap rows).take (i + 1 + 1)) rb.user_id
        = countStarts ((startsList gap rows).take (i + 1)) rb.user_id
          + (if ((gap : Int) * 60 < rb.timestamp - ra.timestamp) then 1 else 0) := by
      rw [List.take_succ, countStarts_append, hfl]
      simp only [Option.toList_some, Option.map_some', newSession, countStarts_cons,
        countStarts_nil]
      by_cases hgt : (gap : Int) * 60 < rb.timestamp - ra.timestamp
      · simp [hgt]
      · simp [hgt]
    have hsidb : b.session_id = a.session_id
        + (if ((gap : Int) * 60 < rb.timestamp - ra.timestamp) then 1 else 0) := by
      rw [hsb, hcnt, hsa, huu]
    rw [hta, htb]
    by_cases hgt : (gap : Int) * 60 < rb.timestamp - ra.timestamp
    · rw [if_pos hgt] at hsidb
      constructor
      · constructor
        · intro he
          omega
        · intro hle
          omega
      · constructor
        · intro _
          exact hgt
        · intro _
          exact hsidb
    · rw [if_neg hgt] at hsidb
      constructor
      · constructor
        · intro _
          omega
        · intro _
          omega
      · constructor
        · intro he
          omega
        · intro hlt
          exact absurd hlt hgt
  · intro i a ha hfirst
    rcases out_elem_spec gap rows i a ha with ⟨ra, hia, hra, _, hsa⟩
    have hua : a.user_id = ra.user_id := congrArg (fun x : Row3 => x.user_id) hra
    rw [hsa]
    apply countStarts_take_first gap rows i ra hia
    intro k hk x hxk
    have hout := out_getElem?_eq gap rows k x hxk
    have := hfirst k _ hk hout
    intro he
    apply this
    rw [hua]
    exact he

/-- Witness for C3: on `[u@0, u@1800, u@3601]` with a 30-minute gap the
first two rows (delta exactly 1800 s) share a session, the third row
(delta 1801 s) starts the next one, and the first row has
`session_id` 1. -/
theorem session_break_iff_gap_exceeded_witness :
    (((mkRow4 "u" 1800 1 2 1800).session_id = (mkRow4 "u" 0 1 2 1800).session_id ↔
        (mkRow4 "u" 1800 1 2 1800).timestamp - (mkRow4 "u" 0 1 2 1800).timestamp
          ≤ (30 : Int) * 60) ∧
     ((mkRow4 "u" 1800 1 2 1800).session_id = (mkRow4 "u" 0 1 2 1800).session_id + 1 ↔
        (30 : Int) * 60
          < (mkRow4 "u" 1800 1 2 1800).timestamp - (mkRow4 "u" 0 1 2 1800).timestamp)) ∧
    (mkRow4 "u" 0 1 2 1800).session_id = 1 :=
  ⟨(session_break_iff_gap_exceeded 30
      [mkRow3 "u" 0, mkRow3 "u" 1800, mkRow3 "u" 3601]).1 0
      (mkRow4 "u" 0 1 2 1800) (mkRow4 "u" 1800 1 2 1800)
      (by decide) (by decide) (by decide),
   (session_break_iff_gap_exceeded 30
      [mkRow3 "u" 0, mkRow3 "u" 1800, mkRow3 "u" 3601]).2 0
      (mkRow4 "u" 0 1 2 1800) (by decide)
      (fun j b hj _ => absurd hj (Nat.not_lt_zero j))⟩

/-! ### Claim C4 -/

/-- C4: the Severity Scorer sets `severity_score` by the fixed lookup
info→0, low→1, medium→2, high→3, critical→4, and every value outside
that five-label set (including "unknown") gets the explicit undefined
value `none` (pandas `NaN` in a nullable `Float64` column),
distinguishable from `some 0`; the lookup is a total function, so no
input raises. -/
theorem severity_score_lookup (rows : List Row) (i : Nat) (r : Row)
    (h : rows[i]? = some r) :
    (add_severity_score rows)[i]?
        = some { toRow := r, severity_score := sevToScore r.severity } ∧
    sevToScore "info" = some 0 ∧ sevToScore "low" = some 1 ∧
    sevToScore "medium" = some 2 ∧ sevToScore "high" = some 3 ∧
    sevToScore "critical" = some 4 ∧
    (∀ s : String, s ∉ ["info", "low", "medium", "high", "critical"] →
      sevToScore s = none ∧ sevToScore s ≠ some 0) := by
  refine ⟨?_, rfl, rfl, rfl, rfl, rfl, ?_⟩
  · rw [add_severity_score, List.getElem?_map, h, Option.map_some']
  · intro s hs
    simp only [List.mem_cons, List.not_mem_nil, or_false, not_or] at hs
    obtain ⟨h1, h2, h3, h4, h5⟩ := hs
    rw [sevToScore, if_neg h1, if_neg h2, if_neg h3, if_neg h4, if_neg h5]
    exact ⟨rfl, Option.noConfusion⟩

/-- Witness for C4: on the one-row table with severity "unknown" the
attached score is `none`. -/
theorem severity_score_lookup_witness :
    (add_severity_score [(⟨"u", 0, 0, "unknown"⟩ : Row)])[0]?
      = some ⟨⟨"u", 0, 0, "unknown"⟩, sevToScore (⟨"u", 0, 0, "unknown"⟩ : Row).severity⟩ :=
  (severity_score_lookup [(⟨"u", 0, 0, "unknown"⟩ : Row)] 0
    ⟨"u", 0, 0, "unknown"⟩ (by decide)).1

/-! ### Claim C5 -/

/-- C5, counterexample: the Session Segmenter does have a no-op
pass-through fallback — on a table without a `timestamp` column
`add_session_features` returns its input unchanged instead of assuming
the column is present. -/
theorem session_stage_has_fallback :
    sessionFeaturesCols (mkCols true true true none) = .ok (mkCols true true true none) :=
  rfl

/-- C5 (amended): the no-op pass-through fallback exists in three
stages — the User Frequency Aggregator (missing `user_id`), the User
Daily-Rate Aggregator (missing or non-temporal `timestamp`), and also
the Session Segmenter (missing `timestamp` column).  The Severity
Scorer has no fallback (a missing `severity` column raises), and the
Session Segmenter does assume its remaining columns whenever the
`timestamp` column is present: it raises on a missing `user_id` (the
sort), on a non-datetime `timestamp` (the `.dt` accessor), and on a
missing `event_id` (the aggregation). -/
theorem fallback_stages_spec :
    (∀ c : Cols, c.user_id = false → userEventFrequencyCols c = .ok c) ∧
    (∀ c : Cols, c.timestamp ≠ some .datetime → userActivityBaselineCols c = .ok c) ∧
    (∀ c : Cols, c.timestamp = none → sessionFeaturesCols c = .ok c) ∧
    (∀ c : Cols, c.severity = false →
      severityScoreCols c = .error "add_severity_score: KeyError severity") ∧
    (∀ c : Cols, c.timestamp ≠ none → c.user_id = false →
      sessionFeaturesCols c = .error "add_session_features: KeyError user_id") ∧
    (∀ c : Cols, c.timestamp ≠ none → c.timestamp ≠ some .datetime → c.user_id = true →
      sessionFeaturesCols c = .error "add_session_features: dt accessor on non-datetime") ∧
    (∀ c : Cols, c.timestamp = some .datetime → c.user_id = true → c.event_id = false →
      sessionFeaturesCols c = .error "add_session_features: KeyError event_id") := by
  refine ⟨?_, ?_, ?_, ?_, ?_, ?_, ?_⟩
  · intro c hc
    simp [userEventFrequencyCols, hc]
  · intro c hc
    simp [userActivityBaselineCols, hc]
  · intro c hc
    simp [sessionFeaturesCols, hc]
  · intro c hc
    simp [severityScoreCols, hc]
  · intro c hc hu
    simp [sessionFeaturesCols, hc, hu]
  · intro c ht0 ht hu
    simp [sessionFeaturesCols, ht0, ht, hu]
  · intro c ht hu he
    simp [sessionFeaturesCols, ht, hu, he]

/-- Witness for C5 (amended): all seven parts evaluated at concrete
schemas. -/
theorem fallback_stages_spec_witness :
    userEventFrequencyCols (mkCols true false true (some .datetime))
        = .ok (mkCols true false true (some .datetime)) ∧
    userActivityBaselineCols (mkCols true true true (some .other))
        = .ok (mkCols true true true (some .other)) ∧
    sessionFeaturesCols (mkCols true false true none)
        = .ok (mkCols true false true none) ∧
    severityScoreCols (mkCols false true true (some .datetime))
        = .error "add_severity_score: KeyError severity" ∧
    sessionFeaturesCols (mkCols true false true (some .datetime))
        = .error "add_session_features: KeyError user_id" ∧
    sessionFeaturesCols (mkCols true true true (some .other))
        = .error "add_session_features: dt accessor on non-datetime" ∧
    sessionFeaturesCols (mkCols true true false (some .datetime))
        = .error "add_session_features: KeyError event_id" :=
  ⟨fallback_stages_spec.1 _ rfl,
   fallback_stages_spec.2.1 _ (by decide),
   fallback_stages_spec.2.2.1 _ rfl,
   fallback_stages_spec.2.2.2.1 _ rfl,
   fallback_stages_spec.2.2.2.2.1 _ (by decide) rfl,
   fallback_stages_spec.2.2.2.2.2.1 _ (by decide) (by decide) rfl,
   fallback_stages_spec.2.2.2.2.2.2 _ rfl rfl rfl⟩

/-! ### Claim C10 -/

/-- C10, counterexample: on a table with `severity`, a temporal
`timestamp` and `event_id` but no `user_id`, `run_all` raises from the
User Daily-Rate Aggregator (`df[["user_id", "timestamp"]]` raises
`KeyError` after the timestamp dtype guard passes), so the Session
Segmenter stage is never reached. -/
theorem missing_user_id_fails_in_baseline_stage :
    runAllCols (mkCols true false true (some .datetime))
        = .error "add_user_activity_baseline: KeyError user_id" ∧
    userActivityBaselineCols (mkCols true false true (some .datetime))
        = .error "add_user_activity_baseline: KeyError user_id" :=
  ⟨rfl, rfl⟩

/-- C10 (amended): for every input table with a temporal `timestamp`
column, a `severity` column, and no `user_id` column, `run_all` raises —
but from the User Daily-Rate Aggregator stage (whose guard checks only
the timestamp and which then selects the missing `user_id` column), not
from the Session Segmenter; the frequency stage silently skips. -/
theorem run_all_missing_user_id_error (c : Cols) (hs : c.severity = true)
    (hu : c.user_id = false) (ht : c.timestamp = some .datetime) :
    runAllCols c = .error "add_user_activity_baseline: KeyError user_id" ∧
    userEventFrequencyCols c = .ok c := by
  have h1 : severityScoreCols c = .ok c := by simp [severityScoreCols, hs]
  have h2 : userEventFrequencyCols c = .ok c := by simp [userEventFrequencyCols, hu]
  have h3 : userActivityBaselineCols c
      = .error "add_user_activity_baseline: KeyError user_id" := by
    simp [userActivityBaselineCols, ht, hu]
  refine ⟨?_, h2⟩
  rw [runAllCols, h1]
  simp only [Bind.bind, Except.bind, h2, h3]

/-- Witness for C10 (amended). -/
theorem run_all_missing_user_id_error_witness :
    runAllCols (mkCols true false false (some .datetime))
        = .error "add_user_activity_baseline: KeyError user_id" ∧
    userEventFrequencyCols (mkCols true false false (some .datetime))
        = .ok (mkCols true false false (some .datetime)) :=
  run_all_missing_user_id_error (mkCols true false false (some .datetime)) rfl rfl rfl

/-! ### Claim C7 -/

/-- C7: the core (`run_all`) returns a table with exactly the same
number of rows as its input — stages only add columns, and the two
merges (on the unique keys `user_id` and (`user_id`, `session_id`))
neither drop nor duplicate rows. -/
theorem run_all_preserves_row_count (gap : Nat) (rows : List Row) :
    (run_all gap rows).length = rows.length := by
  rw [run_all, length_add_session_features, add_user_activity_baseline,
    List.length_map, add_user_event_frequency, List.length_map,
    add_severity_score, List.length_map]

/-! ### Claim C9 -/

/-- C9: the internal sort of the Session Segmenter is stable — rows of
the same user with exactly equal timestamps appear in the sorted table
in exactly the relative order (and identity) they had in the input
table, so session assignment among equal-timestamp rows is determined
by original row order.  (A multi-key pandas `sort_values` always uses
the stable `numpy.lexsort`.) -/
theorem sort_values_stable_on_ties (rows : List Row3) (u : String) (t : Int) :
    (sort_values rows).filter (fun r => r.user_id == u && r.timestamp == t)
      = rows.filter (fun r => r.user_id == u && r.timestamp == t) := by
  apply filter_sort_values
  intro a b ha hb
  simp only [Bool.and_eq_true, beq_iff_eq] at ha hb
  rw [rowLe, if_pos (by rw [ha.1, hb.1]), decide_eq_true_eq, ha.2, hb.2]

/-! ### Claim C8 -/

theorem foldl_min_le_init (xs : List Int) (a : Int) : xs.foldl min a ≤ a := by
  induction xs generalizing a with
  | nil => exact le_refl a
  | cons y t ih => exact le_trans (ih (min a y)) (min_le_left a y)

theorem foldl_min_le_mem (xs : List Int) (a x : Int) (h : x ∈ xs) :
    xs.foldl min a ≤ x := by
  induction xs generalizing a with
  | nil => cases h
  | cons y t ih =>
    rcases List.mem_cons.mp h with he | ht
    · rw [he]
      exact le_trans (foldl_min_le_init t (min a y)) (min_le_right a y)
    · exact ih (min a y) ht

theorem init_le_foldl_max (xs : List Int) (a : Int) : a ≤ xs.foldl max a := by
  induction xs generalizing a with
  | nil => exact le_refl a
  | cons y t ih => exact le_trans (le_max_left a y) (ih (max a y))

theorem mem_le_foldl_max (xs : List Int) (a x : Int) (h : x ∈ xs) :
    x ≤ xs.foldl max a := by
  induction xs generalizing a with
  | nil => cases h
  | cons y t ih =>
    rcases List.mem_cons.mp h with he | ht
    · rw [he]
      exact le_trans (le_max_right a y) (init_le_foldl_max t (max a y))
    · exact ih (max a y) ht

theorem listMin_le_mem (l : List Int) (x : Int) (h : x ∈ l) : listMin l ≤ x := by
  cases l with
  | nil => cases h
  | cons y t =>
    rcases List.mem_cons.mp h with he | ht
    · exact he ▸ foldl_min_le_init t y
    · exact foldl_min_le_mem t y x ht

theorem mem_le_listMax (l : List Int) (x : Int) (h : x ∈ l) : x ≤ listMax l := by
  cases l with
  | nil => cases h
  | cons y t =>
    rcases List.mem_cons.mp h with he | ht
    · exact he ▸ init_le_foldl_max t y
    · exact mem_le_foldl_max t y x ht

theorem attach_user_id (ws : List (Row3 × Nat)) (p : Row3 × Nat) :
    (attachSessionStats ws p).user_id = p.1.user_id := rfl

theorem attach_timestamp (ws : List (Row3 × Nat)) (p : Row3 × Nat) :
    (attachSessionStats ws p).timestamp = p.1.timestamp := rfl

theorem attach_sid (ws : List (Row3 × Nat)) (p : Row3 × Nat) :
    (attachSessionStats ws p).session_id = p.2 := rfl

theorem attach_count (ws : List (Row3 × Nat)) (p : Row3 × Nat) :
    (attachSessionStats ws p).session_event_count = (sessionGroup ws p).length := rfl

theorem attach_dur (ws : List (Row3 × Nat)) (p : Row3 × Nat) :
    (attachSessionStats ws p).session_duration_seconds
      = listMax ((sessionGroup ws p).map fun q => q.1.timestamp)
        - listMin ((sessionGroup ws p).map fun q => q.1.timestamp) := rfl

/-- Filtering the output table to one `(user_id, session_id)` key gives
exactly that key's `groupby` group, with the statistics attached. -/
theorem filter_out_eq (gap : Nat) (rows : List Row3) (p : Row3 × Nat) :
    (add_session_features gap rows).filter
      (fun q => q.user_id == p.1.user_id && q.session_id == p.2)
      = (sessionGroup (sessionTable gap rows) p).map
          (attachSessionStats (sessionTable gap rows)) := by
  rw [add_session_features, List.filter_map]
  rfl

/-- C8: each output row's `session_event_count` equals the number of
output rows with its `(user_id, session_id)` key, and its
`session_duration_seconds` equals max − min of the timestamps of those
rows; the duration is ≥ 0, both statistics are constant within the
group, and a single-event session has duration 0. -/
theorem session_aggregates_spec (gap : Nat) (rows : List Row3) (s : Row4)
    (hs : s ∈ add_session_features gap rows) :
    s.session_event_count
      = ((add_session_features gap rows).filter
          (fun q => q.user_id == s.user_id && q.session_id == s.session_id)).length ∧
    s.session_duration_seconds
      = listMax (((add_session_features gap rows).filter
            (fun q => q.user_id == s.user_id && q.session_id == s.session_id)).map
          (fun q => q.timestamp))
        - listMin (((add_session_features gap rows).filter
            (fun q => q.user_id == s.user_id && q.session_id == s.session_id)).map
          (fun q => q.timestamp)) ∧
    0 ≤ s.session_duration_seconds ∧
    (s.session_event_count = 1 → s.session_duration_seconds = 0) ∧
    (∀ q : Row4, q ∈ add_session_features gap rows → q.user_id = s.user_id →
      q.session_id = s.session_id →
      q.session_event_count = s.session_event_count ∧
      q.session_duration_seconds = s.session_duration_seconds) := by
  rw [add_session_features] at hs
  rcases List.mem_map.mp hs with ⟨p, hp, hps⟩
  subst hps
  have hpgrp : p ∈ sessionGroup (sessionTable gap rows) p := by
    rw [sessionGroup]
    exact List.mem_filter.mpr ⟨hp, by simp⟩
  have hts : p.1.timestamp
      ∈ (sessionGroup (sessionTable gap rows) p).map fun q => q.1.timestamp :=
    List.mem_map.mpr ⟨p, hpgrp, rfl⟩
  have hminmax : listMin ((sessionGroup (sessionTable gap rows) p).map
        fun q => q.1.timestamp)
      ≤ listMax ((sessionGroup (sessionTable gap rows) p).map
        fun q => q.1.timestamp) :=
    le_trans (listMin_le_mem _ _ hts) (mem_le_listMax _ _ hts)
  refine ⟨?_, ?_, ?_, ?_, ?_⟩
  · rw [attach_count, attach_user_id, attach_sid, filter_out_eq, List.length_map]
  · rw [attach_dur, attach_user_id, attach_sid, filter_out_eq, List.map_map]
    rfl
  · rw [attach_dur]
    omega
  · intro h1
    rw [attach_count] at h1
    rcases List.length_eq_one.mp h1 with ⟨a, ha⟩
    rw [attach_dur, ha]
    simp [listMax, listMin]
  · intro q hq hqu hqs
    rw [add_session_features] at hq
    rcases List.mem_map.mp hq with ⟨pq, _, hpq⟩
    subst hpq
    rw [attach_user_id, attach_user_id] at hqu
    rw [attach_sid, attach_sid] at hqs
    have hgrp : sessionGroup (sessionTable gap rows) pq
        = sessionGroup (sessionTable gap rows) p := by
      rw [sessionGroup, sessionGroup, hqu, hqs]
    rw [attach_count, attach_count, attach_dur, attach_dur, hgrp]
    exact ⟨rfl, rfl⟩

/-- Witness for C8: on the one-session table `[u@0, u@1200]` the first
output row reports 2 events and a 1200-second span, which is ≥ 0. -/
theorem session_aggregates_spec_witness :
    (mkRow4 "u" 0 1 2 1200).session_event_count
      = ((add_session_features 30 [mkRow3 "u" 0, mkRow3 "u" 1200]).filter
          (fun q => q.user_id == (mkRow4 "u" 0 1 2 1200).user_id
            && q.session_id == (mkRow4 "u" 0 1 2 1200).session_id)).length ∧
    0 ≤ (mkRow4 "u" 0 1 2 1200).session_duration_seconds :=
  ⟨(session_aggregates_spec 30 [mkRow3 "u" 0, mkRow3 "u" 1200]
      (mkRow4 "u" 0 1 2 1200) (by decide)).1,
   (session_aggregates_spec 30 [mkRow3 "u" 0, mkRow3 "u" 1200]
      (mkRow4 "u" 0 1 2 1200) (by decide)).2.2.1⟩

/-! ### Claim C6 -/

theorem sum_map_add (D : List Int) (f g : Int → Nat) :
    (D.map fun d => f d + g d).sum = (D.map f).sum + (D.map g).sum := by
  induction D with
  | nil => rfl
  | cons d t ih =>
    simp only [List.map_cons, List.sum_cons, ih]
    omega

theorem sum_map_ite_one (D : List Int) (k : Int) (hnd : D.Nodup) (hk : k ∈ D) :
    (D.map fun d => if k = d then 1 else 0).sum = 1 := by
  induction D with
  | nil => cases hk
  | cons d t ih =>
    rw [List.nodup_cons] at hnd
    rcases List.mem_cons.mp hk with he | ht
    · subst he
      rw [List.map_cons, List.sum_cons, if_pos rfl]
      have hz : (t.map fun x => if k = x then 1 else 0).sum = 0 := by
        apply List.sum_eq_zero
        intro n hn
        rcases List.mem_map.mp hn with ⟨d2, hd2, hv⟩
        rw [← hv, if_neg]
        intro he2
        exact hnd.1 (he2 ▸ hd2)
      omega
    · rw [List.map_cons, List.sum_cons,
        if_neg (show ¬ k = d by intro he2; exact hnd.1 (he2 ▸ ht)),
        ih hnd.2 ht]

/-- Partition counting: summing, over a duplicate-free list of keys
covering a list, the number of elements with each key, gives the length
of the list. -/
theorem sum_filter_counts {α : Type} (l : List α) (key : α → Int) (D : List Int)
    (hnd : D.Nodup) (hcov : ∀ x ∈ l, key x ∈ D) :
    (D.map fun d => (l.filter fun x => key x == d).length).sum = l.length := by
  induction l with
  | nil =>
    have hz : ∀ n ∈ D.map fun d => (List.filter (fun x => key x == d) []).length,
        n = 0 := by
      intro n hn
      rcases List.mem_map.mp hn with ⟨d, _, hv⟩
      simpa using hv.symm
    rw [List.sum_eq_zero hz, List.length_nil]
  | cons x t ih =>
    have hfun : (fun d => (List.filter (fun y => key y == d) (x :: t)).length)
        = fun d => (if key x = d then 1 else 0)
            + (List.filter (fun y => key y == d) t).length := by
      funext d
      rw [List.filter_cons]
      by_cases hxd : key x = d
      · rw [if_pos (by simp [hxd]), if_pos hxd, List.length_cons]
        omega
      · rw [if_neg (by simp [hxd]), if_neg hxd]
        omega
    rw [hfun, sum_map_add, sum_map_ite_one D (key x) hnd (hcov x (List.mem_cons_self x t)),
      ih (fun y hy => hcov y (List.mem_cons_of_mem x hy)), List.length_cons]
    omega

/-- The per-day counts of a user sum to that user's total event count:
the distinct active days partition the user's events. -/
theorem userDayCounts_sum (pairs : List (String × Int)) (u : String) :
    (userDayCounts pairs u).sum = (pairs.filter fun p => p.1 == u).length := by
  rw [userDayCounts, userDays]
  exact sum_filter_counts (pairs.filter fun p => p.1 == u) (fun p => floorDay p.2) _
    (List.nodup_dedup _)
    (fun x hx => List.mem_dedup.mpr (List.mem_map.mpr ⟨x, hx, rfl⟩))

/-- C6: the Daily-Rate Aggregator attaches to row `i` the per-user mean
`userDailyAvg` of that row's user, and for every user this mean equals
(total number of the user's events) / (number of distinct UTC calendar
days with at least one event of the user) — the denominator counts only
active days, never the calendar span. -/
theorem user_daily_avg_spec (rows : List Row2) (i : Nat) (r : Row2)
    (h : rows[i]? = some r) :
    (add_user_activity_baseline rows)[i]?
      = some { toRow2 := r,
               user_daily_avg_events :=
                 userDailyAvg (rows.map fun x => (x.user_id, x.timestamp)) r.user_id } ∧
    (∀ u : String,
      userDailyAvg (rows.map fun x => (x.user_id, x.timestamp)) u
        = ((rows.filter fun x => x.user_id == u).length : ℚ)
          / ((userDays (rows.map fun x => (x.user_id, x.timestamp)) u).length : ℚ)) := by
  constructor
  · rw [add_user_activity_baseline, List.getElem?_map, h, Option.map_some']
  · intro u
    rw [userDailyAvg, userDayCounts_sum, userDayCounts, List.length_map,
      List.filter_map, List.length_map]
    rfl

/-- Witness for C6, the spec's own example: user `u` with 3 events on
day 0 and 1 event on day 1 gets `user_daily_avg_events = 2` attached to
its records. -/
theorem user_daily_avg_spec_witness :
    (add_user_activity_baseline baselineSample)[0]?
      = some { toRow2 := mkRow2 "u" 0,
               user_daily_avg_events :=
                 userDailyAvg (baselineSample.map fun x => (x.user_id, x.timestamp))
                   (mkRow2 "u" 0).user_id } ∧
    userDailyAvg (baselineSample.map fun x => (x.user_id, x.timestamp)) "u" = 2 := by
  have H := user_daily_avg_spec baselineSample 0 (mkRow2 "u" 0) (by decide)
  refine ⟨H.1, ?_⟩
  rw [H.2 "u",
    show (baselineSample.filter fun x => x.user_id == "u").length = 4 from by decide,
    show (userDays (baselineSample.map fun x => (x.user_id, x.timestamp)) "u").length = 2
      from by decide]
  norm_num

end SecPipe
